import Mathlib

/-!
Shallow embedding of the worker-pool-service core (internal/pool/pool.go,
internal/model/job.go, internal/model/filter.go, internal/handler/job.go).

Go machine integers (`int`) are modelled as `Int` with explicit wrapping to
signed 64-bit where the code can overflow.  Go `select` statements are
modelled by the list of resolutions the runtime may pick: every ready case
contributes one element, and the `default` case fires exactly when no case
is ready.  A send on a closed channel counts as a ready case whose
resolution is a runtime panic, matching the Go runtime.
-/

namespace WorkerPoolService

/-- model.JobStatus (job.go): pending, running, completed, failed. -/
inductive JobStatus where
  | pending
  | running
  | completed
  | failed
deriving DecidableEq

/-- The payload stored in model.Job.Payload.  In Go this is an interface
value; the two concrete payload types are SleepJobPayload (a duration
string) and MathJobPayload (an int).  `other` stands for any further
dynamic type, so that the failing type assertions in executeJob are
representable. -/
inductive JobPayload where
  | sleep (duration : String)
  | math (number : Int)
  | other
deriving DecidableEq

/-- model.JobResult: SleepJobResult carries SleptFor, MathJobResult
carries Result. -/
inductive JobResult where
  | sleepResult (sleptFor : String)
  | mathResult (result : Int)
deriving DecidableEq

/-- model.Job.  Result is a nil-able interface, hence Option; Error is a
plain string whose zero value "" means "no error".  Timestamps are
nil-able pointers to times, modelled as Option Nat. -/
structure Job where
  uid : String
  jobType : String
  payload : JobPayload
  status : JobStatus
  result : Option JobResult
  error : String
  createdAt : Option Nat
  startedAt : Option Nat
  completedAt : Option Nat
deriving DecidableEq

/-- The job record built by CreateJobsHandler (internal/handler/job.go):
status pending, CreatedAt set, Result/Error/StartedAt/CompletedAt at their
zero values.  Every job that reaches the pool is built this way. -/
def mkJob (uid jobType : String) (payload : JobPayload) (now : Nat) : Job :=
  { uid := uid
    jobType := jobType
    payload := payload
    status := JobStatus.pending
    result := none
    error := ""
    createdAt := some now
    startedAt := none
    completedAt := none }

/-- model.JobFilter (filter.go): optional type and status predicates. -/
structure JobFilter where
  type : Option String
  status : Option JobStatus
deriving DecidableEq

/-- JobFilter.Validate (filter.go).  The receiver is a pointer, so the
argument is an Option: the nil receiver is explicitly accepted.  Statuses
are represented by the JobStatus inductive, so the empty-string and
IsValidJobStatus checks of the source hold by construction. -/
def jobFilterValidate : Option JobFilter → Except String Unit
  | none => Except.ok ()
  | some f =>
    match f.type with
    | some t =>
      if t ≠ "math" ∧ t ≠ "sleep" then Except.error "unsupported job type"
      else Except.ok ()
    | none => Except.ok ()

/-- The jobs map (WorkerPool.jobs), keyed by job.UID.String(). -/
abbrev JobStore := List (String × Job)

/-- WorkerPool.storeJob: Go map assignment p.jobs[job.UID.String()] = job,
i.e. insert-or-overwrite by key. -/
def storeJob (j : Job) (m : JobStore) : JobStore :=
  (List.filter (fun kv => kv.1 ≠ j.uid) m) ++ [(j.uid, j)]

/-- The possible results of one SubmitJob call: the select either sends
(enqueues and stores), panics on a closed queue channel, returns the
caller context's error, returns the pool context's error, or — when no
case is ready — takes the default branch and returns the queue-full
error. -/
inductive SubmitOutcome where
  | enqueued
  | panicked
  | errCallerCanceled
  | errPoolCanceled
  | errQueueFull
deriving DecidableEq

/-- Whether the outcome is the call returning a non-nil error.  enqueued
returns nil; panicked does not return at all. -/
def outcomeIsError : SubmitOutcome → Bool
  | SubmitOutcome.enqueued => false
  | SubmitOutcome.panicked => false
  | SubmitOutcome.errCallerCanceled => true
  | SubmitOutcome.errPoolCanceled => true
  | SubmitOutcome.errQueueFull => true

/-- The state SubmitJob sees: the buffered jobQueue (length and capacity,
capacity fixed at NewWorkerPool), whether Stop has closed the queue
channel, whether the caller context and the pool context are done, and
the jobs map. -/
structure SubmitContext where
  queueLen : Nat
  capacity : Nat
  queueClosed : Bool
  callerDone : Bool
  poolDone : Bool
  store : JobStore
deriving DecidableEq

/-- WorkerPool.SubmitJob (pool.go lines 48-60): a select over
{jobQueue <- job, <-ctx.Done(), <-p.ctx.Done()} with a default branch
returning the queue-full error.  The result lists every resolution the Go
runtime may pick in the given state, paired with the state after it.  The
send case is ready when the channel is closed (resolution: panic) or the
buffer has space (resolution: enqueue, then storeJob); no concurrently
blocked receiver is modelled, matching the claims' premises (unconsumed
jobs / stopped pool). -/
def submitJob (s : SubmitContext) (j : Job) : List (SubmitOutcome × SubmitContext) :=
  let sendCase : List (SubmitOutcome × SubmitContext) :=
    if s.queueClosed then [(SubmitOutcome.panicked, s)]
    else if s.queueLen < s.capacity then
      [(SubmitOutcome.enqueued,
        { s with queueLen := s.queueLen + 1, store := storeJob j s.store })]
    else []
  let callerCase : List (SubmitOutcome × SubmitContext) :=
    if s.callerDone then [(SubmitOutcome.errCallerCanceled, s)] else []
  let poolCase : List (SubmitOutcome × SubmitContext) :=
    if s.poolDone then [(SubmitOutcome.errPoolCanceled, s)] else []
  let ready := sendCase ++ callerCase ++ poolCase
  if ready.isEmpty then [(SubmitOutcome.errQueueFull, s)] else ready

/-- The loop body of WorkerPool.GetAllJobs (pool.go lines 69-83).  The
filter is the Go pointer argument: dereferencing a nil filter
(filter.Type on the first iteration) is a nil-pointer panic, modelled as
none.  Over an empty map the loop body never runs and the nil filter is
never dereferenced. -/
def getAllJobsLoop (f : Option JobFilter) : List Job → List Job → Option (List Job)
  | [], acc => some acc
  | v :: rest, acc =>
    match f with
    | none => none
    | some flt =>
      if flt.type.isSome ∧ flt.type ≠ some v.jobType then
        getAllJobsLoop f rest acc
      else if flt.status.isSome ∧ flt.status ≠ some v.status then
        getAllJobsLoop f rest acc
      else
        getAllJobsLoop f rest (acc ++ [v])

/-- WorkerPool.GetAllJobs: iterate the stored jobs (in some map order,
here the order of the list) appending every job that passes both
optional predicates. -/
def getAllJobs (f : Option JobFilter) (jobs : List Job) : Option (List Job) :=
  getAllJobsLoop f jobs []

/-- The spec's kind predicate: "absent predicate matches everything; with
the kind predicate set it returns only jobs of that kind". -/
def specKindMatches (f : JobFilter) (v : Job) : Bool :=
  match f.type with
  | none => true
  | some t => t == v.jobType

/-- The spec's status predicate: "absent predicate matches everything;
with the status predicate set it returns only jobs with that status". -/
def specStatusMatches (f : JobFilter) (v : Job) : Bool :=
  match f.status with
  | none => true
  | some st => st == v.status

/-- Go time package's quote helper as used in duration error messages:
the string wrapped in double quotes. -/
def quoteStr (s : String) : String := "\"" ++ s ++ "\""

/-- time.leadingInt: consume leading decimal digits into a uint64 with
Go's overflow checks (error once the value would exceed 1<<63). -/
def leadingIntAux (x : Nat) : List Char → Option (Nat × List Char)
  | [] => some (x, [])
  | c :: rest =>
    if c < '0' ∨ c > '9' then some (x, c :: rest)
    else if x > 2 ^ 63 / 10 then none
    else
      let x2 := x * 10 + (c.toNat - Char.toNat '0')
      if x2 > 2 ^ 63 then none
      else leadingIntAux x2 rest

/-- time.leadingFraction: consume fraction digits, tracking the value and
the power-of-ten scale, silently dropping digits once the value would
overflow.  Go holds the scale in a float64; every scale reached here
(at most 10^19) is exactly representable there, so Nat is faithful. -/
def leadingFractionAux (x scale : Nat) (overflow : Bool) :
    List Char → Nat × Nat × List Char
  | [] => (x, scale, [])
  | c :: rest =>
    if c < '0' ∨ c > '9' then (x, scale, c :: rest)
    else if overflow then leadingFractionAux x scale true rest
    else if x > (2 ^ 63 - 1) / 10 then leadingFractionAux x scale true rest
    else
      let y := x * 10 + (c.toNat - Char.toNat '0')
      if y > 2 ^ 63 then leadingFractionAux x scale true rest
      else leadingFractionAux y (scale * 10) overflow rest

/-- time.unitMap: nanoseconds per unit. -/
def unitMap (u : String) : Option Nat :=
  if u = "ns" then some 1
  else if u = "us" then some 1000
  else if u = "µs" then some 1000
  else if u = "μs" then some 1000
  else if u = "ms" then some 1000000
  else if u = "s" then some 1000000000
  else if u = "m" then some 60000000000
  else if u = "h" then some 3600000000000
  else none

/-- One pass of time.ParseDuration's main loop per (number, unit)
component, recursing on a fuel bound.  Each pass consumes at least the
unit character, so fuel = length of the remaining input + 1 never runs
out before the input does.  Go applies the fraction through float64
arithmetic (f * (unit/scale) truncated); the model uses the exact
truncated rational f * unit / scale, which agrees on all inputs the
claims touch. -/
def parseDurationLoop (orig : String) : Nat → Nat → List Char → Except String Nat
  | fuel, d, s =>
    match s with
    | [] => Except.ok d
    | c :: _ =>
      match fuel with
      | 0 => Except.error ("time: invalid duration " ++ quoteStr orig)
      | Nat.succ fuel2 =>
        if ¬ (c = '.' ∨ ('0' ≤ c ∧ c ≤ '9')) then
          Except.error ("time: invalid duration " ++ quoteStr orig)
        else
          match leadingIntAux 0 s with
          | none => Except.error ("time: invalid duration " ++ quoteStr orig)
          | some (v, s1) =>
            let pre := decide (s1.length ≠ s.length)
            let fracStep :=
              match s1 with
              | '.' :: s1t =>
                let fs := leadingFractionAux 0 1 false s1t
                (fs.1, fs.2.1, fs.2.2, decide (fs.2.2.length ≠ s1t.length))
              | _ => (0, 1, s1, false)
            let f := fracStep.1
            let scale := fracStep.2.1
            let s2 := fracStep.2.2.1
            let post := fracStep.2.2.2
            if !pre && !post then
              Except.error ("time: invalid duration " ++ quoteStr orig)
            else
              let unitChars := s2.takeWhile
                (fun ch => ¬ (ch = '.' ∨ ('0' ≤ ch ∧ ch ≤ '9')))
              let s3 := s2.drop unitChars.length
              if unitChars.length = 0 then
                Except.error ("time: missing unit in duration " ++ quoteStr orig)
              else
                match unitMap (String.mk unitChars) with
                | none =>
                  Except.error ("time: unknown unit " ++ quoteStr (String.mk unitChars) ++
                    " in duration " ++ quoteStr orig)
                | some unit =>
                  if v > 2 ^ 63 / unit then
                    Except.error ("time: invalid duration " ++ quoteStr orig)
                  else
                    let v2 := v * unit
                    let v3 := if f > 0 then v2 + f * unit / scale else v2
                    if f > 0 ∧ v3 > 2 ^ 63 then
                      Except.error ("time: invalid duration " ++ quoteStr orig)
                    else
                      let d2 := d + v3
                      if d2 > 2 ^ 63 then
                        Except.error ("time: invalid duration " ++ quoteStr orig)
                      else parseDurationLoop orig fuel2 d2 s3

/-- time.ParseDuration, returning the duration in nanoseconds. -/
def parseDuration (input : String) : Except String Int :=
  let s0 := input.data
  let signStep :=
    match s0 with
    | c :: rest => if c = '-' ∨ c = '+' then (decide (c = '-'), rest) else (false, s0)
    | [] => (false, s0)
  let neg := signStep.1
  let s1 := signStep.2
  if s1 = ['0'] then Except.ok 0
  else if s1 = [] then Except.error ("time: invalid duration " ++ quoteStr input)
  else
    match parseDurationLoop input (s1.length + 1) 0 s1 with
    | Except.error e => Except.error e
    | Except.ok d =>
      if neg then Except.ok (-(d : Int))
      else if d > 2 ^ 63 - 1 then
        Except.error ("time: invalid duration " ++ quoteStr input)
      else Except.ok (d : Int)

/-- time.fmtFrac: render the lowest `prec` digits of v as a trailing
".ddd" fraction with trailing zeros (and an all-zero fraction's dot)
omitted; returns the rendered fraction and v shifted right by prec
digits.  The accumulator collects digits right-to-left like Go's
buffer. -/
def fmtFrac : Nat → Nat → Bool → String → String × Nat
  | 0, v, printed, acc => (if printed then "." ++ acc else acc, v)
  | Nat.succ p, v, printed, acc =>
    let digit := v % 10
    let pr := printed || decide (digit ≠ 0)
    fmtFrac p (v / 10) pr
      (if pr then String.mk [Char.ofNat (digit + Char.toNat '0')] ++ acc else acc)

/-- time.Duration.String on a duration d in nanoseconds: sub-second
durations print as ns/µs/ms with fraction, others as [h][m]s. -/
def durationString (d : Int) : String :=
  let u := d.natAbs
  let body :=
    if u < 1000000000 then
      if u = 0 then "0s"
      else if u < 1000 then
        let fr := fmtFrac 0 u false ""
        toString fr.2 ++ fr.1 ++ "ns"
      else if u < 1000000 then
        let fr := fmtFrac 3 u false ""
        toString fr.2 ++ fr.1 ++ "µs"
      else
        let fr := fmtFrac 6 u false ""
        toString fr.2 ++ fr.1 ++ "ms"
    else
      let fr := fmtFrac 9 u false ""
      let u1 := fr.2
      let secPart := toString (u1 % 60) ++ fr.1 ++ "s"
      let u2 := u1 / 60
      if u2 > 0 then
        let minPart := toString (u2 % 60) ++ "m" ++ secPart
        let u3 := u2 / 60
        if u3 > 0 then toString u3 ++ "h" ++ minPart else minPart
      else secPart
  if d < 0 then "-" ++ body else body

/-- Wrap an unbounded integer to Go's signed 64-bit int. -/
def wrap64 (x : Int) : Int := (x + 2 ^ 63) % 2 ^ 64 - 2 ^ 63

/-- The summation loop of the math strategy (pool.go lines 186-189):
result := 0; for i := 0; i < number; i++ left-brace result += i
right-brace, with result a Go int, so each addition wraps to signed
64-bit.  A non-positive bound never runs the body. -/
def mathLoop (number : Int) : Int :=
  List.foldl (fun (acc : Int) (i : Nat) => wrap64 (acc + (i : Int))) 0
    (List.range number.toNat)

/-- The sum 0+1+...+(N-1) exactly as the spec states it, over unbounded
integers (the spec-side definition C2 compares the loop against). -/
def specSum (number : Int) : Int :=
  List.foldl (fun (acc : Int) (i : Nat) => acc + (i : Int)) 0
    (List.range number.toNat)

/-- WorkerPool.executeJob (pool.go lines 158-197).  `ctxDoneFirst`
records which branch the sleep strategy's select (time.After vs
p.ctx.Done()) resolves to; it can be true only when the pool context is
cancelled during the sleep, and p.ctx.Err() then renders as
"context canceled". -/
def executeJob (ctxDoneFirst : Bool) (job : Job) : Except String JobResult :=
  match job.jobType with
  | "sleep" =>
    match job.payload with
    | JobPayload.sleep durStr =>
      match parseDuration durStr with
      | Except.error e => Except.error ("invalid duration: " ++ e)
      | Except.ok duration =>
        if ctxDoneFirst then Except.error "context canceled"
        else Except.ok (JobResult.sleepResult (durationString duration))
    | _ => Except.error "invalid sleep payload type"
  | "math" =>
    match job.payload with
    | JobPayload.math number => Except.ok (JobResult.mathResult (mathLoop number))
    | _ => Except.error "invalid math payload type"
  | _ => Except.error "unknown job type"

/-- The running-state update at the top of WorkerPool.processJob
(pool.go lines 129-133): status running, StartedAt stamped, stored.
Because the store keeps the same pointer, this and every later field
mutation is immediately visible through the store. -/
def processJobRun (j : Job) (startTime : Nat) : Job :=
  { j with status := JobStatus.running, startedAt := some startTime }

/-- WorkerPool.processJob (pool.go lines 126-156): mark running, execute,
stamp CompletedAt, then set either status failed + Error or status
completed + Result.  Returns the finalized record. -/
def processJob (ctxDoneFirst : Bool) (j : Job) (startTime endTime : Nat) : Job :=
  let j1 := processJobRun j startTime
  match executeJob ctxDoneFirst j1 with
  | Except.ok r =>
    { j1 with completedAt := some endTime, status := JobStatus.completed,
              result := some r }
  | Except.error e =>
    { j1 with completedAt := some endTime, status := JobStatus.failed,
              error := e }

deriving instance DecidableEq for Except

/-! ## Helper lemmas -/

theorem wrap64_wrap_add (x y : Int) : wrap64 (wrap64 x + y) = wrap64 (x + y) := by
  unfold wrap64
  omega

theorem wrap64_of_bounds (x : Int) (h1 : -(2 ^ 63) ≤ x) (h2 : x < 2 ^ 63) :
    wrap64 x = x := by
  unfold wrap64
  omega

theorem mathLoop_range_eq (m : Nat) :
    List.foldl (fun (acc : Int) (i : Nat) => wrap64 (acc + (i : Int))) 0
      (List.range m) =
      wrap64 ((∑ i ∈ Finset.range m, i : Nat) : Int) := by
  induction m with
  | zero => decide
  | succ k ih =>
    rw [List.range_succ, List.foldl_append]
    simp only [List.foldl_cons, List.foldl_nil]
    rw [ih, wrap64_wrap_add, Finset.sum_range_succ]
    congr 1

theorem sumLoop_range_eq (m : Nat) :
    List.foldl (fun (acc : Int) (i : Nat) => acc + (i : Int)) 0
      (List.range m) =
      ((∑ i ∈ Finset.range m, i : Nat) : Int) := by
  induction m with
  | zero => rfl
  | succ k ih =>
    rw [List.range_succ, List.foldl_append]
    simp only [List.foldl_cons, List.foldl_nil]
    rw [ih, Finset.sum_range_succ]
    push_cast
    ring

theorem mathLoop_eq_wrap (n : Int) :
    mathLoop n = wrap64 ((∑ i ∈ Finset.range n.toNat, i : Nat) : Int) :=
  mathLoop_range_eq n.toNat

theorem specSum_eq_sum (n : Int) :
    specSum n = ((∑ i ∈ Finset.range n.toNat, i : Nat) : Int) :=
  sumLoop_range_eq n.toNat

/-! ## Claim theorems -/

/-- C2 counterexample: the claim quantifies over every N ≥ 0, but the
loop accumulates in a 64-bit Go int.  At N = 2^32 + 1 the mathematical
sum 0+1+...+(N-1) is 2^63 + 2^31, which wraps to the negative value
-(2^63 - 2^31); executeJob reports that wrapped value, not the sum. -/
theorem executeJob_math_overflow_counterexample :
    executeJob false (mkJob "job-1" "math" (JobPayload.math 4294967297) 0) =
      Except.ok (JobResult.mathResult (-9223372034707292160)) ∧
    specSum 4294967297 = 9223372039002259456 ∧
    (-9223372034707292160 : Int) ≠ 9223372039002259456 := by
  have hsum : (∑ i ∈ Finset.range ((4294967297 : Int)).toNat, i : Nat) =
      9223372039002259456 := by
    rw [Finset.sum_range_id]
    rfl
  refine ⟨?_, ?_, by decide⟩
  · have h : executeJob false (mkJob "job-1" "math" (JobPayload.math 4294967297) 0) =
        Except.ok (JobResult.mathResult (mathLoop 4294967297)) := rfl
    rw [h, mathLoop_eq_wrap, hsum]
    decide
  · rw [specSum_eq_sum, hsum]
    rfl

/-- C2 (amended): for every math job whose payload integer N is
nonnegative and whose sum 0+1+...+(N-1) fits a signed 64-bit int,
executeJob returns no error and a MathJobResult carrying exactly that
sum (in particular N=4 gives 6, N=1 and N=0 give 0); for larger N the
stored result is the sum wrapped to 64 bits. -/
theorem executeJob_math_sum (uid : String) (t : Nat) (n : Int)
    (h0 : 0 ≤ n) (hb : specSum n < 2 ^ 63) :
    executeJob false (mkJob uid "math" (JobPayload.math n) t) =
      Except.ok (JobResult.mathResult (specSum n)) := by
  have h : executeJob false (mkJob uid "math" (JobPayload.math n) t) =
      Except.ok (JobResult.mathResult (mathLoop n)) := rfl
  rw [h, mathLoop_eq_wrap, specSum_eq_sum] at *
  rw [wrap64_of_bounds]
  · exact le_trans (by norm_num) (Int.natCast_nonneg _)
  · exact hb

/-- Witness for C2's amended theorem at N = 4: the hypotheses hold and
the result is 6 = 0+1+2+3. -/
theorem executeJob_math_sum_witness :
    (0 : Int) ≤ 4 ∧ specSum 4 < 2 ^ 63 ∧
    executeJob false (mkJob "job-1" "math" (JobPayload.math 4) 0) =
      Except.ok (JobResult.mathResult 6) := by
  refine ⟨by decide, by decide, ?_⟩
  have h := executeJob_math_sum "job-1" 0 4 (by decide) (by decide)
  rw [h]
  decide

/-- C10: for every math job whose payload integer N is negative, the
summation loop body never runs, so executeJob returns no error and a
MathJobResult of 0, and the processed job completes successfully. -/
theorem executeJob_math_negative (uid : String) (t t1 t2 : Nat) (n : Int)
    (h : n < 0) :
    executeJob false (mkJob uid "math" (JobPayload.math n) t) =
      Except.ok (JobResult.mathResult 0) ∧
    (processJob false (mkJob uid "math" (JobPayload.math n) t) t1 t2).status =
      JobStatus.completed := by
  have hm : mathLoop n = 0 := by
    unfold mathLoop
    rw [Int.toNat_of_nonpos (le_of_lt h)]
    rfl
  constructor
  · have h1 : executeJob false (mkJob uid "math" (JobPayload.math n) t) =
        Except.ok (JobResult.mathResult (mathLoop n)) := rfl
    rw [h1, hm]
  · have hex : executeJob false
        (processJobRun (mkJob uid "math" (JobPayload.math n) t) t1) =
        Except.ok (JobResult.mathResult (mathLoop n)) := rfl
    simp [processJob, hex]

/-- Witness for C10 at N = -5. -/
theorem executeJob_math_negative_witness :
    executeJob false (mkJob "job-1" "math" (JobPayload.math (-5)) 0) =
      Except.ok (JobResult.mathResult 0) ∧
    (processJob false (mkJob "job-1" "math" (JobPayload.math (-5)) 0) 1 2).status =
      JobStatus.completed :=
  executeJob_math_negative "job-1" 0 1 2 (-5) (by decide)

theorem specKindMatches_false_iff (f : JobFilter) (v : Job) :
    specKindMatches f v = false ↔ (f.type.isSome ∧ f.type ≠ some v.jobType) := by
  rcases hft : f.type with _ | t <;> simp [specKindMatches, hft]

theorem specStatusMatches_false_iff (f : JobFilter) (v : Job) :
    specStatusMatches f v = false ↔ (f.status.isSome ∧ f.status ≠ some v.status) := by
  rcases hfs : f.status with _ | st <;> simp [specStatusMatches, hfs]

theorem getAllJobsLoop_some (f : JobFilter) (jobs : List Job) :
    ∀ acc : List Job,
      getAllJobsLoop (some f) jobs acc =
        some (acc ++ List.filter
          (fun v => specKindMatches f v && specStatusMatches f v) jobs) := by
  induction jobs with
  | nil => intro acc; simp [getAllJobsLoop]
  | cons v rest ih =>
    intro acc
    rw [getAllJobsLoop]
    by_cases h1 : f.type.isSome ∧ f.type ≠ some v.jobType
    · have hk : specKindMatches f v = false := (specKindMatches_false_iff f v).mpr h1
      rw [if_pos h1, ih, List.filter_cons]
      simp [hk]
    · have hk : specKindMatches f v = true := by
        rcases hb : specKindMatches f v
        · exact absurd ((specKindMatches_false_iff f v).mp hb) h1
        · rfl
      rw [if_neg h1]
      by_cases h2 : f.status.isSome ∧ f.status ≠ some v.status
      · have hs : specStatusMatches f v = false :=
          (specStatusMatches_false_iff f v).mpr h2
        rw [if_pos h2, ih, List.filter_cons]
        simp [hs]
      · have hs : specStatusMatches f v = true := by
          rcases hb : specStatusMatches f v
          · exact absurd ((specStatusMatches_false_iff f v).mp hb) h2
          · rfl
        rw [if_neg h2, ih, List.filter_cons]
        simp [hk, hs]

/-- C6: GetAllJobs returns exactly the stored jobs satisfying the
conjunction of the filter's two optional predicates (absent predicate
matches everything); in particular with no predicate set it returns
every stored job.  Quantifying over the store list covers every map
iteration order. -/
theorem getAllJobs_filters_conjunction (f : JobFilter) (jobs : List Job) :
    getAllJobs (some f) jobs =
      some (List.filter
        (fun v => specKindMatches f v && specStatusMatches f v) jobs) ∧
    getAllJobs (some { type := none, status := none }) jobs = some jobs := by
  constructor
  · rw [getAllJobs, getAllJobsLoop_some]
    simp
  · rw [getAllJobs, getAllJobsLoop_some]
    simp [specKindMatches, specStatusMatches]

/-- C9 counterexample: with a nil filter and an empty store, GetAllJobs
returns the empty slice without ever dereferencing the filter — no
nil-pointer panic — while Validate indeed accepts the nil filter. -/
theorem getAllJobs_nil_filter_empty_store_no_panic :
    getAllJobs none [] = some [] ∧ jobFilterValidate none = Except.ok () := by
  constructor <;> rfl

/-- C9 (amended): GetAllJobs dereferences its nil filter — a nil-pointer
panic, modelled as none — exactly when the store is non-empty (the
dereference sits in the loop body, reached on the first stored job);
Validate nevertheless accepts a nil filter, and a non-nil filter is safe
for every store. -/
theorem getAllJobs_nil_filter_panics_iff_nonempty :
    (∀ jobs : List Job, jobs ≠ [] → getAllJobs none jobs = none) ∧
    jobFilterValidate none = Except.ok () ∧
    (∀ (f : JobFilter) (jobs : List Job), (getAllJobs (some f) jobs).isSome = true) := by
  refine ⟨?_, rfl, ?_⟩
  · intro jobs hne
    match jobs with
    | [] => exact absurd rfl hne
    | v :: rest => rfl
  · intro f jobs
    rw [getAllJobs, getAllJobsLoop_some]
    rfl

/-- Witness for C9's amended theorem: a one-job store makes the nil
filter panic, while Validate still accepts nil. -/
theorem getAllJobs_nil_filter_panics_witness :
    getAllJobs none [mkJob "job-1" "math" (JobPayload.math 0) 0] = none ∧
    jobFilterValidate none = Except.ok () :=
  ⟨getAllJobs_nil_filter_panics_iff_nonempty.1
      [mkJob "job-1" "math" (JobPayload.math 0) 0] (by decide),
    getAllJobs_nil_filter_panics_iff_nonempty.2.1⟩

/-- C1: with the queue already holding capacity unconsumed jobs and
neither cancellation signal set, no select case is ready, so the default
branch returns the queue-full error at once; the state — in particular
the job store — is unchanged, so the rejected job is never stored. -/
theorem submitJob_queue_full_rejects (s : SubmitContext) (j : Job)
    (hfull : s.queueLen = s.capacity) (hcl : s.queueClosed = false)
    (hcd : s.callerDone = false) (hpd : s.poolDone = false) :
    submitJob s j = [(SubmitOutcome.errQueueFull, s)] ∧
    ∀ o s2, (o, s2) ∈ submitJob s j → s2.store = s.store := by
  have h : submitJob s j = [(SubmitOutcome.errQueueFull, s)] := by
    simp [submitJob, hfull, hcl, hcd, hpd]
  refine ⟨h, ?_⟩
  intro o s2 hm
  rw [h] at hm
  simp at hm
  rw [hm.2]

/-- Witness for C1: a pool of capacity 2 whose queue holds 2 jobs
rejects a submission with the queue-full error, leaving the store
as it was. -/
theorem submitJob_queue_full_rejects_witness :
    submitJob
        { queueLen := 2, capacity := 2, queueClosed := false,
          callerDone := false, poolDone := false,
          store := [("job-1", mkJob "job-1" "math" (JobPayload.math 1) 0)] }
        (mkJob "job-3" "math" (JobPayload.math 3) 0) =
      [(SubmitOutcome.errQueueFull,
        { queueLen := 2, capacity := 2, queueClosed := false,
          callerDone := false, poolDone := false,
          store := [("job-1", mkJob "job-1" "math" (JobPayload.math 1) 0)] })] :=
  (submitJob_queue_full_rejects
    { queueLen := 2, capacity := 2, queueClosed := false,
      callerDone := false, poolDone := false,
      store := [("job-1", mkJob "job-1" "math" (JobPayload.math 1) 0)] }
    (mkJob "job-3" "math" (JobPayload.math 3) 0) rfl rfl rfl rfl).1

/-- C4 counterexample: after Stop() the queue channel is closed and the
pool context cancelled, so the select has two ready cases — sending on
the closed channel (a runtime panic) and the pool context's Done — and
the Go runtime picks one pseudo-randomly.  The panic resolution is not
an error return, refuting "the call fails (returns an error)". -/
theorem submitJob_after_stop_may_panic :
    submitJob
        { queueLen := 0, capacity := 2, queueClosed := true,
          callerDone := false, poolDone := true, store := [] }
        (mkJob "job-1" "math" (JobPayload.math 1) 0) =
      [(SubmitOutcome.panicked,
        { queueLen := 0, capacity := 2, queueClosed := true,
          callerDone := false, poolDone := true, store := [] }),
       (SubmitOutcome.errPoolCanceled,
        { queueLen := 0, capacity := 2, queueClosed := true,
          callerDone := false, poolDone := true, store := [] })] ∧
    outcomeIsError SubmitOutcome.panicked = false := by
  constructor <;> rfl

/-- C4 (amended): after Stop() has returned, no SubmitJob call succeeds
or stores a job: every possible resolution is either a context-canceled
error return or a panic from sending on the closed queue channel, and
the pool state (in particular the store) is unchanged. -/
theorem submitJob_after_stop_never_succeeds (s : SubmitContext) (j : Job)
    (hcl : s.queueClosed = true) (hpd : s.poolDone = true) :
    ∀ o s2, (o, s2) ∈ submitJob s j →
      (o = SubmitOutcome.panicked ∨ o = SubmitOutcome.errPoolCanceled ∨
        o = SubmitOutcome.errCallerCanceled) ∧
      o ≠ SubmitOutcome.enqueued ∧ s2 = s := by
  intro o s2 hm
  by_cases hcd : s.callerDone
  · simp [submitJob, hcl, hpd, hcd] at hm
    rcases hm with ⟨rfl, rfl⟩ | ⟨rfl, rfl⟩ | ⟨rfl, rfl⟩ <;> simp
  · simp [submitJob, hcl, hpd, hcd] at hm
    rcases hm with ⟨rfl, rfl⟩ | ⟨rfl, rfl⟩ <;> simp

/-- Witness for C4's amended theorem: the panic resolution of a
post-stop submission is not a success and leaves the state alone. -/
theorem submitJob_after_stop_never_succeeds_witness :
    (SubmitOutcome.panicked = SubmitOutcome.panicked ∨
      SubmitOutcome.panicked = SubmitOutcome.errPoolCanceled ∨
      SubmitOutcome.panicked = SubmitOutcome.errCallerCanceled) ∧
    SubmitOutcome.panicked ≠ SubmitOutcome.enqueued ∧
    ({ queueLen := 0, capacity := 2, queueClosed := true,
       callerDone := false, poolDone := true, store := [] } : SubmitContext) =
      { queueLen := 0, capacity := 2, queueClosed := true,
        callerDone := false, poolDone := true, store := [] } :=
  submitJob_after_stop_never_succeeds
    { queueLen := 0, capacity := 2, queueClosed := true,
      callerDone := false, poolDone := true, store := [] }
    (mkJob "job-1" "math" (JobPayload.math 1) 0) rfl rfl
    SubmitOutcome.panicked
    { queueLen := 0, capacity := 2, queueClosed := true,
      callerDone := false, poolDone := true, store := [] }
    (by decide)

/-- C5 counterexample: with the pool's cancellation signal set but a free
queue slot, the send case and the pool-Done case are both ready, so the
select may resolve to the send: the call then succeeds and stores the
job, refuting "fails with a cancellation condition, not with success,
regardless of whether the queue has free capacity". -/
theorem submitJob_cancelled_may_succeed :
    submitJob
        { queueLen := 0, capacity := 1, queueClosed := false,
          callerDone := false, poolDone := true, store := [] }
        (mkJob "job-1" "math" (JobPayload.math 1) 0) =
      [(SubmitOutcome.enqueued,
        { queueLen := 1, capacity := 1, queueClosed := false,
          callerDone := false, poolDone := true,
          store := [("job-1", mkJob "job-1" "math" (JobPayload.math 1) 0)] }),
       (SubmitOutcome.errPoolCanceled,
        { queueLen := 0, capacity := 1, queueClosed := false,
          callerDone := false, poolDone := true, store := [] })] ∧
    outcomeIsError SubmitOutcome.enqueued = false := by
  constructor <;> rfl

theorem submitJob_mem_cases (s : SubmitContext) (j : Job) (o : SubmitOutcome)
    (s2 : SubmitContext) (hm : (o, s2) ∈ submitJob s j) :
    (o = SubmitOutcome.panicked ∧ s.queueClosed = true ∧ s2 = s) ∨
    (o = SubmitOutcome.enqueued ∧ s.queueClosed = false ∧ s.queueLen < s.capacity ∧
      s2 = { s with queueLen := s.queueLen + 1, store := storeJob j s.store }) ∨
    (o = SubmitOutcome.errCallerCanceled ∧ s.callerDone = true ∧ s2 = s) ∨
    (o = SubmitOutcome.errPoolCanceled ∧ s.poolDone = true ∧ s2 = s) ∨
    (o = SubmitOutcome.errQueueFull ∧ s.queueClosed = false ∧
      s.capacity ≤ s.queueLen ∧ s.callerDone = false ∧ s.poolDone = false ∧ s2 = s) := by
  cases hcl : s.queueClosed <;> cases hcd : s.callerDone <;> cases hpd : s.poolDone <;>
    by_cases hlen : s.queueLen < s.capacity <;>
    simp [submitJob, hcl, hcd, hpd, hlen] at hm <;>
    simp [hcl, hcd, hpd, hlen, Nat.not_lt.mp] <;>
    tauto

theorem submitJob_enqueued_mem (s : SubmitContext) (j : Job)
    (hcl : s.queueClosed = false) (hlen : s.queueLen < s.capacity) :
    (SubmitOutcome.enqueued,
      { s with queueLen := s.queueLen + 1, store := storeJob j s.store }) ∈
      submitJob s j := by
  simp [submitJob, hcl, hlen]

/-- C5 (amended): when the pool's or the caller's cancellation signal is
already set (queue not yet closed), SubmitJob never reports queue-full;
if the queue is at capacity the call deterministically fails with the
context's error, but with a free slot the select nondeterministically
either succeeds — enqueuing and storing the job — or fails with the
cancellation error. -/
theorem submitJob_cancelled_no_queue_full (s : SubmitContext) (j : Job)
    (hc : s.poolDone = true ∨ s.callerDone = true) (hcl : s.queueClosed = false) :
    (∀ o s2, (o, s2) ∈ submitJob s j → o ≠ SubmitOutcome.errQueueFull) ∧
    (s.capacity ≤ s.queueLen →
      ∀ o s2, (o, s2) ∈ submitJob s j →
        o = SubmitOutcome.errPoolCanceled ∨ o = SubmitOutcome.errCallerCanceled) ∧
    (s.queueLen < s.capacity →
      (SubmitOutcome.enqueued,
        { s with queueLen := s.queueLen + 1, store := storeJob j s.store }) ∈
        submitJob s j) := by
  refine ⟨?_, ?_, fun hlen => submitJob_enqueued_mem s j hcl hlen⟩
  · intro o s2 hm
    rcases submitJob_mem_cases s j o s2 hm with
      ⟨_, hq, _⟩ | ⟨rfl, _⟩ | ⟨rfl, _⟩ | ⟨rfl, _⟩ | ⟨rfl, _, _, hcd2, hpd2, _⟩
    · rw [hcl] at hq; exact absurd hq (by simp)
    · simp
    · simp
    · simp
    · rcases hc with hx | hx
      · rw [hpd2] at hx; exact absurd hx (by simp)
      · rw [hcd2] at hx; exact absurd hx (by simp)
  · intro hge o s2 hm
    rcases submitJob_mem_cases s j o s2 hm with
      ⟨_, hq, _⟩ | ⟨_, _, hlt, _⟩ | ⟨rfl, _⟩ | ⟨rfl, _⟩ | ⟨_, _, _, hcd2, hpd2, _⟩
    · rw [hcl] at hq; exact absurd hq (by simp)
    · omega
    · exact Or.inr rfl
    · exact Or.inl rfl
    · rcases hc with hx | hx
      · rw [hpd2] at hx; exact absurd hx (by simp)
      · rw [hcd2] at hx; exact absurd hx (by simp)

/-- Witness for C5's amended theorem: pool cancelled, queue at capacity:
the only possible outcome is the pool context's error. -/
theorem submitJob_cancelled_no_queue_full_witness :
    SubmitOutcome.errPoolCanceled = SubmitOutcome.errPoolCanceled ∨
    SubmitOutcome.errPoolCanceled = SubmitOutcome.errCallerCanceled :=
  (submitJob_cancelled_no_queue_full
    { queueLen := 1, capacity := 1, queueClosed := false,
      callerDone := false, poolDone := true, store := [] }
    (mkJob "job-1" "math" (JobPayload.math 1) 0) (Or.inl rfl) rfl).2.1
    (by decide) SubmitOutcome.errPoolCanceled
    { queueLen := 1, capacity := 1, queueClosed := false,
      callerDone := false, poolDone := true, store := [] }
    (by decide)

theorem append_data_ne_empty (s t : String) (c : Char) (cs : List Char)
    (h : s.data = c :: cs) : s ++ t ≠ "" := by
  intro hc
  have hd := congrArg String.data hc
  rw [String.data_append, h] at hd
  simp at hd

theorem executeJob_error_nonempty (c : Bool) (j : Job) (er : String)
    (h : executeJob c j = Except.error er) : er ≠ "" := by
  unfold executeJob at h
  split at h
  · split at h
    · split at h
      · injection h with h2
        subst h2
        exact append_data_ne_empty "invalid duration: " _ 'i' _ rfl
      · split at h
        · injection h with h2
          subst h2
          decide
        · exact Except.noConfusion h
    · injection h with h2
      subst h2
      decide
  · split at h
    · exact Except.noConfusion h
    · injection h with h2
      subst h2
      decide
  · injection h with h2
    subst h2
    decide

/-- C7: for every handler-built job and every execution, neither result
nor error is populated while the job is pending (as submitted) or
running (the worker's in-flight update); the processed job is terminal,
and exactly one of result/error is populated there — the result iff
completed, the error iff failed. -/
theorem processJob_result_error_discipline (uid ty : String) (p : JobPayload)
    (t0 t1 t2 : Nat) (c : Bool) :
    ((mkJob uid ty p t0).status = JobStatus.pending ∧
      (mkJob uid ty p t0).result = none ∧ (mkJob uid ty p t0).error = "") ∧
    ((processJobRun (mkJob uid ty p t0) t1).status = JobStatus.running ∧
      (processJobRun (mkJob uid ty p t0) t1).result = none ∧
      (processJobRun (mkJob uid ty p t0) t1).error = "") ∧
    ((processJob c (mkJob uid ty p t0) t1 t2).status = JobStatus.completed ∨
      (processJob c (mkJob uid ty p t0) t1 t2).status = JobStatus.failed) ∧
    ((processJob c (mkJob uid ty p t0) t1 t2).status = JobStatus.completed →
      (processJob c (mkJob uid ty p t0) t1 t2).result.isSome = true ∧
        (processJob c (mkJob uid ty p t0) t1 t2).error = "") ∧
    ((processJob c (mkJob uid ty p t0) t1 t2).status = JobStatus.failed →
      (processJob c (mkJob uid ty p t0) t1 t2).error ≠ "" ∧
        (processJob c (mkJob uid ty p t0) t1 t2).result = none) := by
  refine ⟨⟨rfl, rfl, rfl⟩, ⟨rfl, rfl, rfl⟩, ?_, ?_, ?_⟩
  · cases hex : executeJob c (processJobRun (mkJob uid ty p t0) t1) with
    | error er => right; simp [processJob, hex]
    | ok r => left; simp [processJob, hex]
  · intro hst
    cases hex : executeJob c (processJobRun (mkJob uid ty p t0) t1) with
    | error er => exfalso; simp [processJob, hex] at hst
    | ok r =>
      simp only [processJobRun, mkJob] at hex
      simp [processJob, processJobRun, mkJob, hex]
  · intro hst
    cases hex : executeJob c (processJobRun (mkJob uid ty p t0) t1) with
    | error er =>
      have hne := executeJob_error_nonempty c _ er hex
      simp only [processJobRun, mkJob] at hex
      constructor
      · simpa [processJob, processJobRun, mkJob, hex] using hne
      · simp [processJob, processJobRun, mkJob, hex]
    | ok r => exfalso; simp [processJob, hex] at hst

/-- Witness for C7, instantiated at a math job. -/
theorem processJob_result_error_discipline_witness :
    ((mkJob "job-1" "math" (JobPayload.math 2) 0).status = JobStatus.pending ∧
      (mkJob "job-1" "math" (JobPayload.math 2) 0).result = none ∧
      (mkJob "job-1" "math" (JobPayload.math 2) 0).error = "") ∧
    ((processJobRun (mkJob "job-1" "math" (JobPayload.math 2) 0) 1).status =
        JobStatus.running ∧
      (processJobRun (mkJob "job-1" "math" (JobPayload.math 2) 0) 1).result = none ∧
      (processJobRun (mkJob "job-1" "math" (JobPayload.math 2) 0) 1).error = "") ∧
    ((processJob false (mkJob "job-1" "math" (JobPayload.math 2) 0) 1 2).status =
        JobStatus.completed ∨
      (processJob false (mkJob "job-1" "math" (JobPayload.math 2) 0) 1 2).status =
        JobStatus.failed) ∧
    ((processJob false (mkJob "job-1" "math" (JobPayload.math 2) 0) 1 2).status =
        JobStatus.completed →
      (processJob false (mkJob "job-1" "math" (JobPayload.math 2) 0) 1 2).result.isSome =
          true ∧
        (processJob false (mkJob "job-1" "math" (JobPayload.math 2) 0) 1 2).error = "") ∧
    ((processJob false (mkJob "job-1" "math" (JobPayload.math 2) 0) 1 2).status =
        JobStatus.failed →
      (processJob false (mkJob "job-1" "math" (JobPayload.math 2) 0) 1 2).error ≠ "" ∧
        (processJob false (mkJob "job-1" "math" (JobPayload.math 2) 0) 1 2).result =
          none) :=
  processJob_result_error_discipline "job-1" "math" (JobPayload.math 2) 0 1 2 false

/-- C3: if the pool context's Done fires while a sleep job (with a
parseable duration) is mid-sleep, the processed job is failed with the
context's cancellation error in its error field, and is not completed. -/
theorem processJob_sleep_cancelled_fails (uid s : String) (d : Int)
    (t0 t1 t2 : Nat) (hparse : parseDuration s = Except.ok d) :
    (processJob true (mkJob uid "sleep" (JobPayload.sleep s) t0) t1 t2).status =
      JobStatus.failed ∧
    (processJob true (mkJob uid "sleep" (JobPayload.sleep s) t0) t1 t2).error =
      "context canceled" ∧
    (processJob true (mkJob uid "sleep" (JobPayload.sleep s) t0) t1 t2).status ≠
      JobStatus.completed := by
  have h1 : executeJob true (processJobRun (mkJob uid "sleep" (JobPayload.sleep s) t0) t1) =
      (match parseDuration s with
        | Except.error e => Except.error ("invalid duration: " ++ e)
        | Except.ok _ => Except.error "context canceled") := rfl
  rw [hparse] at h1
  refine ⟨?_, ?_, ?_⟩ <;> simp [processJob, h1]

/-- Witness for C3 at duration "100ms". -/
theorem processJob_sleep_cancelled_fails_witness :
    (processJob true (mkJob "job-1" "sleep" (JobPayload.sleep "100ms") 0) 1 2).status =
      JobStatus.failed ∧
    (processJob true (mkJob "job-1" "sleep" (JobPayload.sleep "100ms") 0) 1 2).error =
      "context canceled" ∧
    (processJob true (mkJob "job-1" "sleep" (JobPayload.sleep "100ms") 0) 1 2).status ≠
      JobStatus.completed :=
  processJob_sleep_cancelled_fails "job-1" "100ms" 100000000 0 1 2 (by decide)

/-- C8: a sleep job whose duration parses to d, run without
cancellation, yields no error and a SleepJobResult whose SleptFor is the
rendering of exactly the slept duration d. -/
theorem executeJob_sleep_completes (uid s : String) (d : Int) (t0 : Nat)
    (hparse : parseDuration s = Except.ok d) :
    executeJob false (mkJob uid "sleep" (JobPayload.sleep s) t0) =
      Except.ok (JobResult.sleepResult (durationString d)) := by
  have h1 : executeJob false (mkJob uid "sleep" (JobPayload.sleep s) t0) =
      (match parseDuration s with
        | Except.error e => Except.error ("invalid duration: " ++ e)
        | Except.ok dur => Except.ok (JobResult.sleepResult (durationString dur))) := rfl
  rw [h1, hparse]

/-- Witness for C8: input "100ms" parses to 100000000 ns and the result
reports exactly "100ms" slept. -/
theorem executeJob_sleep_completes_witness :
    parseDuration "100ms" = Except.ok 100000000 ∧
    executeJob false (mkJob "job-1" "sleep" (JobPayload.sleep "100ms") 0) =
      Except.ok (JobResult.sleepResult "100ms") := by
  refine ⟨by decide, ?_⟩
  have h := executeJob_sleep_completes "job-1" "100ms" 100000000 0 (by decide)
  rw [h]
  decide

end WorkerPoolService
